import Mathlib

/-!
Verification of the sandboxed tool-execution layer and streaming proxy of the
`chat` repository (`server/server.js` and its extended variant).  The server's
filesystem is modelled as an association list from absolute path strings to
file contents; the external npm libraries (`diff`, `fast-glob`, the RegExp
engine, the OpenAI streaming client) are modelled as explicit function
parameters, so every theorem below holds for every behaviour of those
libraries unless a concrete model is singled out.
-/

namespace Chat

/-! ### Character-list string utilities (kernel-friendly) -/

/-- Does the list `t` occur at the start of the list `s`?  Models the
JavaScript `String.prototype.startsWith` receiver/argument relation at the
level of character lists. -/
def charsStart : List Char → List Char → Bool
  | [], _ => true
  | _ :: _, [] => false
  | a :: as, b :: bs => a = b && charsStart as bs

/-- JavaScript `s.startsWith(t)`: `t` is a leading substring of `s`. -/
def jsStartsWith (s t : String) : Bool :=
  charsStart t.toList s.toList

/-- Split a character list on a separator character (used for `/`-separated
path segments and for `\n`-separated patch lines). -/
def splitOnCharAux (sep : Char) : List Char → List Char → List (List Char)
  | [], acc => [acc.reverse]
  | c :: cs, acc =>
    if c = sep then acc.reverse :: splitOnCharAux sep cs []
    else splitOnCharAux sep cs (c :: acc)

def splitOnChar (sep : Char) (l : List Char) : List (List Char) :=
  splitOnCharAux sep l []

/-- Split on the JavaScript regular expression `/\r?\n/` as used by `grep`:
a line break is `\n` optionally preceded by `\r`; a lone `\r` is content. -/
def splitLinesAux : List Char → List Char → List (List Char)
  | [], acc => [acc.reverse]
  | '\r' :: '\n' :: cs, acc => acc.reverse :: splitLinesAux cs []
  | '\n' :: cs, acc => acc.reverse :: splitLinesAux cs []
  | c :: cs, acc => splitLinesAux cs (c :: acc)

def splitLines (s : String) : List String :=
  (splitLinesAux s.toList []).map fun l => ⟨l⟩

/-- UTF-8 byte width of one code point (models Node's `Buffer.byteLength`
accounting per character). -/
def cUtf8Size (c : Char) : Nat :=
  if c.toNat < 0x80 then 1
  else if c.toNat < 0x800 then 2
  else if c.toNat < 0x10000 then 3
  else 4

/-- UTF-16 code-unit width of one code point (JavaScript string indexing). -/
def cUtf16Size (c : Char) : Nat :=
  if c.toNat < 0x10000 then 1 else 2

def utf8LenAux : List Char → Nat
  | [] => 0
  | c :: cs => cUtf8Size c + utf8LenAux cs

/-- `Buffer.byteLength(s, 'utf8')`. -/
def utf8Len (s : String) : Nat :=
  utf8LenAux s.toList

def utf16LenAux : List Char → Nat
  | [] => 0
  | c :: cs => cUtf16Size c + utf16LenAux cs

/-- Length of a JavaScript string in UTF-16 code units. -/
def utf16Len (s : String) : Nat :=
  utf16LenAux s.toList

/-- Take the longest leading run of characters whose combined UTF-16 width
fits in `n` code units. -/
def jsSliceAux : List Char → Nat → List Char
  | [], _ => []
  | c :: cs, n =>
    if cUtf16Size c ≤ n then c :: jsSliceAux cs (n - cUtf16Size c) else []

/-- JavaScript `s.slice(0, n)`, which counts UTF-16 code units (not bytes).
The model never splits a surrogate pair: a code point that only partially
fits is dropped, where JavaScript would keep a lone surrogate. -/
def jsSlice (s : String) (n : Nat) : String :=
  ⟨jsSliceAux s.toList n⟩

/-! ### Path model (`path.resolve` + the `startsWith` containment check) -/

/-- One normalization step of POSIX path resolution: empty and `.` segments
vanish, `..` pops the previous segment (and is a no-op at the root). -/
def normStep (acc : List (List Char)) (seg : List Char) : List (List Char) :=
  if seg = [] ∨ seg = ['.'] then acc
  else if seg = ['.', '.'] then acc.dropLast
  else acc ++ [seg]

def resolveSegs (l : List Char) : List (List Char) :=
  (splitOnChar '/' l).foldl normStep []

/-- Node's `path.resolve(root, rel)` for an absolute `root` and a relative
`rel`: join, then canonicalize `.` / `..` / duplicate separators.  (The
claims under verification quantify only over relative `rel`, so the
absolute-`rel` branch of `path.resolve` is not modelled.) -/
def pathResolve (root rel : String) : String :=
  let segs := resolveSegs (root.toList ++ '/' :: rel.toList)
  ⟨'/' :: List.intercalate ['/'] segs⟩

/-- `resolveSafe` from `server/server.js` lines 26–32: resolve the relative
path against the workspace root, then reject when the resolved string does
not start with the root *string* (`full.startsWith(WORKSPACE_ROOT)`).  An
empty `relPath` is falsy in JavaScript and defaults to `"."`. -/
def resolveSafe (root relPath : String) : Except String String :=
  let full := pathResolve root (if relPath = "" then "." else relPath)
  if jsStartsWith full root then Except.ok full
  else Except.error "Path escapes workspace root"

/-- The spec's notion of containment: the resolved path is the root itself or
has the root as a *path* prefix (root followed by a separator). -/
def withinRootB (root p : String) : Bool :=
  p = root || jsStartsWith p (root ++ "/")

/-- C1: `resolveSafe` is claimed to reject every relative path whose canonical
resolution leaves the workspace root.  Counter-evaluation: with root
`/workspace`, the relative path `../workspace-evil/secret.txt` canonically
resolves to `/workspace-evil/secret.txt` — outside the root — yet the
string-level `startsWith` check accepts it, so `resolveSafe` succeeds and
returns a path that is not within the root. -/
theorem resolveSafe_c1_sibling_escape :
    resolveSafe "/workspace" "../workspace-evil/secret.txt"
      = Except.ok "/workspace-evil/secret.txt"
    ∧ withinRootB "/workspace" "/workspace-evil/secret.txt" = false := by
  constructor
  · rfl
  · rfl

/-! ### Filesystem model -/

/-- The server's view of the disk: an association list from absolute path to
file content (first binding wins).  Directories are implicit in the paths. -/
abbrev FS := List (String × String)

def fsLookup (fs : FS) (p : String) : Option String :=
  match fs with
  | [] => none
  | (q, c) :: rest => if q = p then some c else fsLookup rest p

/-- `fs.writeFileSync(p, c)`: overwrite the binding for `p`, or append it. -/
def fsWrite (fs : FS) (p c : String) : FS :=
  match fs with
  | [] => [(p, c)]
  | (q, d) :: rest => if q = p then (q, c) :: rest else (q, d) :: fsWrite rest p c

/-! ### `readFile` (server.js lines 46–54) -/

structure Snapshot where
  truncated : Bool
  content : String
  totalBytes : Nat
deriving DecidableEq

/-- `readFile` from `server/server.js`: resolve, read as UTF-8 text (failing
when the path has no content — `fs.readFileSync` throws), then truncate with
`data.slice(0, maxBytes)` when `Buffer.byteLength(data) > maxBytes`.  The
`opts.maxBytes || 200_000` default treats `0` (falsy) as absent. -/
def readFile (fs : FS) (root relPath : String) (maxBytes : Option Nat) :
    Except String Snapshot := do
  let p ← resolveSafe root relPath
  match fsLookup fs p with
  | none => Except.error "ENOENT: no such file or directory"
  | some data =>
    let mb := match maxBytes with
      | some m => if m = 0 then 200000 else m
      | none => 200000
    if utf8Len data > mb then
      Except.ok ⟨true, jsSlice data mb, utf8Len data⟩
    else
      Except.ok ⟨false, data, utf8Len data⟩

/-! ### `writeFile` (server.js lines 56–68) -/

inductive WriteResult
  | dryRun (diff message : String)
  | applied (bytes : Nat)
deriving DecidableEq

/-- `writeFile` from `server/server.js`.  The npm `diff` library's
`createTwoFilesPatch(relPath, relPath, before, content, 'before', 'after')`
is abstracted as the parameter `cp relPath before content`.  With
`approve = false` the call is a pure dry-run returning the diff; with
`approve = true` it writes `content` (the `mkdirSync` for parent directories
is implicit in the flat path map). -/
def writeFile (cp : String → String → String → String) (fs : FS)
    (root relPath content : String) (approve : Bool) :
    Except String (FS × WriteResult) := do
  let p ← resolveSafe root relPath
  let before := match fsLookup fs p with
    | some c => c
    | none => ""
  let patch := cp relPath before content
  if !approve then
    Except.ok (fs, WriteResult.dryRun patch "Dry-run only. Set approve=true to apply.")
  else
    Except.ok (fsWrite fs p content, WriteResult.applied (utf8Len content))

/-! ### `applyUnifiedPatch` (server.js lines 70–85) -/

inductive PatchResult
  | dryRun (canApply : Bool) (preview : Option String)
  | failed (error : String)
  | applied
deriving DecidableEq

/-- `applyUnifiedPatch` from `server/server.js`.  The npm `diff` library's
`applyPatch(before, unified)` is abstracted as the parameter `lib`, with
`none` standing for the library's `false` (patch does not apply).  Note the
two result shapes on failure: `{dryRun:true, canApply:false, preview:null}`
without approval, `{dryRun:false, applied:false, error}` with approval. -/
def applyUnifiedPatch (lib : String → String → Option String) (fs : FS)
    (root relPath unified : String) (approve : Bool) :
    Except String (FS × PatchResult) := do
  let p ← resolveSafe root relPath
  let before := match fsLookup fs p with
    | some c => c
    | none => ""
  if !approve then
    match lib before unified with
    | some result => Except.ok (fs, PatchResult.dryRun true (some result))
    | none => Except.ok (fs, PatchResult.dryRun false none)
  else
    match lib before unified with
    | none => Except.ok (fs, PatchResult.failed "Failed to apply patch.")
    | some result => Except.ok (fsWrite fs p result, PatchResult.applied)

/-! ### A concrete unified-patch applier

Modelled from the spec: the external `diff` library's `applyPatch` is not part
of the repository, so a concrete model is built from the spec's description
(§4.3): "standard unified-diff hunk matching (context-line verification; a
hunk fails to apply if its context/removal lines do not match the base at the
expected offset)".  It instantiates the `lib` parameter in witnesses and
counterexamples; the per-claim theorems themselves are parametric in `lib`. -/

def takeDigits : List Char → List Char × List Char
  | [] => ([], [])
  | c :: cs =>
    if '0' ≤ c ∧ c ≤ '9' then
      let (ds, rest) := takeDigits cs
      (c :: ds, rest)
    else ([], c :: cs)

def digitsToNat (ds : List Char) : Nat :=
  ds.foldl (fun a c => a * 10 + (c.toNat - '0'.toNat)) 0

/-- Parse a hunk header `@@ -<oldStart>[,<oldLines>] +... @@`, returning the
1-based start line in the original file. -/
def parseHunkStart : List Char → Option Nat
  | '@' :: '@' :: ' ' :: '-' :: rest =>
    let (ds, _) := takeDigits rest
    if ds = [] then none else some (digitsToNat ds)
  | _ => none

def isBodyLine : List Char → Bool
  | [] => false
  | c :: _ => c = ' ' || c = '+' || c = '-' || c = '\\'

structure Hunk where
  start : Nat
  body : List (List Char)
deriving DecidableEq

/-- Collect the hunks of a unified patch; lines outside hunks (file headers,
`Index:` lines, separators) are skipped, matching the library's parser. -/
def parseHunksAux : List (List Char) → List Hunk → List Hunk
  | [], acc => acc.reverse
  | l :: rest, acc =>
    match parseHunkStart l with
    | some s => parseHunksAux rest (⟨s, []⟩ :: acc)
    | none =>
      match acc with
      | [] => parseHunksAux rest acc
      | h :: hs =>
        if isBodyLine l then parseHunksAux rest (⟨h.start, h.body ++ [l]⟩ :: hs)
        else parseHunksAux rest (h :: hs)

/-- Apply one hunk body to the remaining base lines: a `' '` context line and
a `'-'` removal line must equal the next base line exactly, a `'+'` line is
inserted, and a `'\'` marker line is ignored.  Returns the produced lines,
the unconsumed base lines, and the number of base lines consumed. -/
def applyBody : List (List Char) → List (List Char) →
    Option (List (List Char) × List (List Char) × Nat)
  | [], rem => some ([], rem, 0)
  | bl :: bls, rem =>
    match bl with
    | ' ' :: content =>
      match rem with
      | [] => none
      | r :: rs =>
        if r = content then
          (applyBody bls rs).map fun (o, rest, n) => (content :: o, rest, n + 1)
        else none
    | '-' :: content =>
      match rem with
      | [] => none
      | r :: rs =>
        if r = content then
          (applyBody bls rs).map fun (o, rest, n) => (o, rest, n + 1)
        else none
    | '+' :: content =>
      (applyBody bls rem).map fun (o, rest, n) => (content :: o, rest, n)
    | '\\' :: _ => applyBody bls rem
    | _ => none

/-- Apply hunks in order.  `pos` is the 1-based line number of the head of
`remaining`; lines before a hunk's declared start are copied verbatim. -/
def applyHunks : List Hunk → List (List Char) → Nat → Option (List (List Char))
  | [], remaining, _ => some remaining
  | h :: hs, remaining, pos =>
    let skip := h.start - pos
    if remaining.length < skip then none
    else
      match applyBody h.body (remaining.drop skip) with
      | none => none
      | some (outLines, rest, consumed) =>
        (applyHunks hs rest (h.start + consumed)).map
          fun tail => remaining.take skip ++ outLines ++ tail

/-- The concrete patch applier: split into lines, parse hunks, verify and
apply each hunk at its declared offset; any mismatch yields `none` (the
library's `false`). -/
def applyPatchModel (base patch : String) : Option String :=
  match parseHunksAux (splitOnChar '\n' patch.toList) [] with
  | [] => some base
  | hunks =>
    (applyHunks hunks (splitOnChar '\n' base.toList) 1).map
      fun ls => ⟨List.intercalate ['\n'] ls⟩

/-! ### Claims C2–C5 -/

/-- C2: with `approve = false`, `writeFile` returns the same preview — the
unified diff of the file's current content (empty when absent) against the
requested content — on every call and leaves the filesystem untouched, so
repeating the call reproduces the identical result; with `approve = true` it
performs exactly one write, replacing the file's content.  Holds for every
diff-library behaviour `cp`. -/
theorem writeFile_c2_dry_run_idempotent
    (cp : String → String → String → String) (fs : FS)
    (root relPath content p : String)
    (h : resolveSafe root relPath = Except.ok p) :
    writeFile cp fs root relPath content false
      = Except.ok (fs, WriteResult.dryRun
          (cp relPath ((fsLookup fs p).getD "") content)
          "Dry-run only. Set approve=true to apply.")
    ∧ (∀ fs2 r, writeFile cp fs root relPath content false = Except.ok (fs2, r) →
        writeFile cp fs2 root relPath content false = Except.ok (fs2, r))
    ∧ writeFile cp fs root relPath content true
      = Except.ok (fsWrite fs p content, WriteResult.applied (utf8Len content)) := by
  have h1 : writeFile cp fs root relPath content false
      = Except.ok (fs, WriteResult.dryRun
          (cp relPath ((fsLookup fs p).getD "") content)
          "Dry-run only. Set approve=true to apply.") := by
    simp only [writeFile, h, Bind.bind, Except.bind]
    cases hf : fsLookup fs p <;> simp [hf]
  refine ⟨h1, ?_, ?_⟩
  · intro fs2 r hw
    rw [h1] at hw
    obtain ⟨h2, h3⟩ := Prod.mk.injEq .. ▸ Except.ok.injEq .. ▸ hw
    exact h2 ▸ h3 ▸ h1
  · simp only [writeFile, h, Bind.bind, Except.bind]
    cases hf : fsLookup fs p <;> simp [hf]

/-- C2 witness: concrete dry-run on an existing file. -/
theorem writeFile_c2_witness :
    resolveSafe "/ws" "notes.txt" = Except.ok "/ws/notes.txt"
    ∧ writeFile (fun r b a => r ++ "|" ++ b ++ "|" ++ a) [("/ws/notes.txt", "old")]
        "/ws" "notes.txt" "new" false
      = Except.ok ([("/ws/notes.txt", "old")],
          WriteResult.dryRun "notes.txt|old|new" "Dry-run only. Set approve=true to apply.") :=
  ⟨rfl, (writeFile_c2_dry_run_idempotent (fun r b a => r ++ "|" ++ b ++ "|" ++ a)
      [("/ws/notes.txt", "old")] "/ws" "notes.txt" "new" "/ws/notes.txt" rfl).1⟩

/-- C3 counterexample: a patch whose context does not match the base, with
`approve = false`, yields `{dryRun:true, canApply:false, preview:null}` — a
result that is not the `Failed{reason}` variant for any reason, refuting the
claim that a non-applying patch returns `Failed` regardless of `approve`. -/
theorem applyUnifiedPatch_c3_counterexample :
    applyUnifiedPatch applyPatchModel [("/ws/f.txt", "alpha\nbeta")] "/ws" "f.txt"
        "@@ -1,2 +1,2 @@\n hello\n-world\n+there" false
      = Except.ok ([("/ws/f.txt", "alpha\nbeta")], PatchResult.dryRun false none)
    ∧ ∀ reason, PatchResult.dryRun false none ≠ PatchResult.failed reason :=
  ⟨rfl, fun _ h => PatchResult.noConfusion h⟩

/-- C3 amended: when the patch does not apply to the base content, no write
occurs under either flag; with `approve = true` the result is the `Failed`
variant with reason `Failed to apply patch.`, while with `approve = false` it
is a dry-run result with `canApply = false` and no preview (no reason field).
Holds for every patch-library behaviour `lib`. -/
theorem applyUnifiedPatch_c3_amended
    (lib : String → String → Option String) (fs : FS)
    (root relPath unified p : String) (approve : Bool)
    (h : resolveSafe root relPath = Except.ok p)
    (hfail : lib ((fsLookup fs p).getD "") unified = none) :
    applyUnifiedPatch lib fs root relPath unified approve
      = Except.ok (fs,
          if approve then PatchResult.failed "Failed to apply patch."
          else PatchResult.dryRun false none) := by
  cases approve <;>
    · simp only [applyUnifiedPatch, h, Bind.bind, Except.bind]
      cases hf : fsLookup fs p <;> simp [hf] at hfail ⊢ <;> simp [hfail]

/-- C3 witness: the amended statement at a concrete conflicting patch with
`approve = true`. -/
theorem applyUnifiedPatch_c3_witness :
    resolveSafe "/ws" "g.txt" = Except.ok "/ws/g.txt"
    ∧ applyPatchModel "gamma\ndelta" "@@ -1,2 +1,2 @@\n hello\n-world\n+there" = none
    ∧ applyUnifiedPatch applyPatchModel [("/ws/g.txt", "gamma\ndelta")] "/ws" "g.txt"
        "@@ -1,2 +1,2 @@\n hello\n-world\n+there" true
      = Except.ok ([("/ws/g.txt", "gamma\ndelta")],
          PatchResult.failed "Failed to apply patch.") :=
  ⟨rfl, rfl, applyUnifiedPatch_c3_amended applyPatchModel [("/ws/g.txt", "gamma\ndelta")]
      "/ws" "g.txt" "@@ -1,2 +1,2 @@\n hello\n-world\n+there" "/ws/g.txt" true rfl rfl⟩

/-- C4: applying a patch that does not match the on-disk content with
`approve = true` returns the `Failed` result and leaves the filesystem
exactly as it was — no partial application.  Holds for every patch-library
behaviour `lib`; the hypothesis `hfail` states that the patch (for example
one generated against unrelated content) does not apply to the file's
current content. -/
theorem applyUnifiedPatch_c4_conflict_unchanged
    (lib : String → String → Option String) (fs : FS)
    (root relPath unified p : String)
    (h : resolveSafe root relPath = Except.ok p)
    (hfail : lib ((fsLookup fs p).getD "") unified = none) :
    applyUnifiedPatch lib fs root relPath unified true
      = Except.ok (fs, PatchResult.failed "Failed to apply patch.") := by
  simp only [applyUnifiedPatch, h, Bind.bind, Except.bind]
  cases hf : fsLookup fs p <;> simp [hf] at hfail ⊢ <;> simp [hfail]

/-- C4 witness: a patch generated against `hello\nworld` (rewriting its
second line) conflicts with the unrelated on-disk content `one\ntwo`; the
approved application fails and the file binding is unchanged. -/
theorem applyUnifiedPatch_c4_witness :
    resolveSafe "/ws" "c.txt" = Except.ok "/ws/c.txt"
    ∧ applyPatchModel "one\ntwo" "@@ -1,2 +1,2 @@\n hello\n-world\n+there" = none
    ∧ applyUnifiedPatch applyPatchModel [("/ws/c.txt", "one\ntwo")] "/ws" "c.txt"
        "@@ -1,2 +1,2 @@\n hello\n-world\n+there" true
      = Except.ok ([("/ws/c.txt", "one\ntwo")],
          PatchResult.failed "Failed to apply patch.") :=
  ⟨rfl, rfl, applyUnifiedPatch_c4_conflict_unchanged applyPatchModel
      [("/ws/c.txt", "one\ntwo")] "/ws" "c.txt"
      "@@ -1,2 +1,2 @@\n hello\n-world\n+there" "/ws/c.txt" rfl rfl⟩

theorem jsSliceAux_utf16_le : ∀ (l : List Char) (n : Nat),
    utf16LenAux (jsSliceAux l n) ≤ n
  | [], n => by simp [jsSliceAux, utf16LenAux]
  | c :: cs, n => by
    simp only [jsSliceAux]
    split
    · rename_i hc
      have ih := jsSliceAux_utf16_le cs (n - cUtf16Size c)
      simp only [utf16LenAux]
      omega
    · simp [utf16LenAux]

/-- JavaScript's `slice(0, n)` keeps at most `n` UTF-16 code units. -/
theorem jsSlice_utf16_le (s : String) (n : Nat) : utf16Len (jsSlice s n) ≤ n :=
  jsSliceAux_utf16_le s.toList n

/-- C5 counterexample: for the 6-byte (3-character) file content `ééé` and
`maxBytes = 2`, `readFile` reports `truncated = true` and `totalBytes = 6`
but returns `éé` — the first 2 UTF-16 code units, which is 4 bytes, not the
claimed "prefix of exactly maxBytes bytes". -/
theorem readFile_c5_counterexample :
    readFile [("/ws/f.txt", "ééé")] "/ws" "f.txt" (some 2)
      = Except.ok ⟨true, "éé", 6⟩
    ∧ utf8Len "éé" ≠ 2 :=
  ⟨rfl, by decide⟩

/-- C5 amended: for an existing file, when the UTF-8 byte length exceeds
`maxBytes` the result is `truncated = true` with `totalBytes` the true byte
length and `content` the first `maxBytes` UTF-16 code units of the text
(which is exactly `maxBytes` bytes only when those units are single-byte,
e.g. for ASCII); when the byte length is at most `maxBytes` (including
exactly `maxBytes`) the full content is returned with `truncated = false`. -/
theorem readFile_c5_amended (fs : FS) (root relPath p data : String) (mb : Nat)
    (h : resolveSafe root relPath = Except.ok p)
    (hdata : fsLookup fs p = some data) (hmb : mb ≠ 0) :
    readFile fs root relPath (some mb)
      = Except.ok (if utf8Len data > mb
          then ⟨true, jsSlice data mb, utf8Len data⟩
          else ⟨false, data, utf8Len data⟩)
    ∧ utf16Len (jsSlice data mb) ≤ mb := by
  constructor
  · have hd : (if mb = 0 then 200000 else mb) = mb := if_neg hmb
    simp only [readFile, h, hdata, Bind.bind, Except.bind, hd]
    split <;> simp_all
  · exact jsSlice_utf16_le data mb

/-- C5 witness: the 5-byte ASCII file `hello` read with `maxBytes = 3`. -/
theorem readFile_c5_witness :
    resolveSafe "/ws" "w.txt" = Except.ok "/ws/w.txt"
    ∧ fsLookup [("/ws/w.txt", "hello")] "/ws/w.txt" = some "hello"
    ∧ (3 : Nat) ≠ 0
    ∧ readFile [("/ws/w.txt", "hello")] "/ws" "w.txt" (some 3)
      = Except.ok ⟨true, "hel", 5⟩ :=
  ⟨rfl, rfl, by decide,
    (readFile_c5_amended [("/ws/w.txt", "hello")] "/ws" "w.txt" "/ws/w.txt" "hello" 3
      rfl rfl (by decide)).1⟩

/-! ### `grep` (server.js lines 96–119) -/

structure GrepMatch where
  file : String
  line : Nat
  text : String
deriving DecidableEq

/-- `path.join(cwd, f)` for a plain relative name. -/
def pathJoin (a b : String) : String := a ++ "/" ++ b

/-- `path.relative(root, full)` for the contained case: strip the leading
`root/`; other shapes are returned unchanged. -/
def relFromRoot (root full : String) : String :=
  if jsStartsWith full (root ++ "/") then ⟨full.toList.drop (root.toList.length + 1)⟩
  else full

/-- The `lines.forEach((line, idx) => ...)` body: one record per line on
which the compiled regular expression fires, with 1-based line numbers. -/
def matchLinesAux (test : String → Bool) (file : String) :
    List String → Nat → List GrepMatch
  | [], _ => []
  | l :: ls, idx =>
    if test l then ⟨file, idx + 1, l⟩ :: matchLinesAux test file ls (idx + 1)
    else matchLinesAux test file ls (idx + 1)

def matchLines (test : String → Bool) (file : String) (data : String) :
    List GrepMatch :=
  matchLinesAux test file (splitLines data) 0

/-- The `for (const f of files)` loop of `grep`: unreadable files (no content
in the model) are skipped by the empty `catch`; after a file is processed the
loop breaks as soon as `out.length >= maxMatches`. -/
def grepGo (test : String → Bool) (fs : FS) (root cwd : String) (mm : Nat) :
    List String → List GrepMatch → List GrepMatch
  | [], out => out
  | f :: rest, out =>
    match fsLookup fs (pathJoin cwd f) with
    | none => grepGo test fs root cwd mm rest out
    | some data =>
      let out2 := out ++ matchLines test (relFromRoot root (pathJoin cwd f)) data
      if mm ≤ out2.length then out2 else grepGo test fs root cwd mm rest out2

/-- `grep` from `server/server.js`.  `fgAll` abstracts the fast-glob call
`fg.sync(['**/*.*'], {cwd, ...})` enumerating candidate files, and `test`
abstracts `new RegExp(pattern, 'i').test` — the pattern compiled with the
case-insensitive flag.  The destructuring default `maxMatches = 200` fires
only when the argument is absent. -/
def grep (fgAll : FS → String → List String) (test : String → Bool) (fs : FS)
    (root cwdRel : String) (maxMatches : Option Nat) :
    Except String (List GrepMatch) := do
  let cwd ← resolveSafe root cwdRel
  Except.ok ((grepGo test fs root cwd (maxMatches.getD 200) (fgAll fs cwd) []).take
    (maxMatches.getD 200))

/-- The spec-side description of the full match stream: every matching line
of every readable candidate file, in file-processing order. -/
def grepAllMatches (test : String → Bool) (fs : FS) (root cwd : String)
    (files : List String) : List GrepMatch :=
  (files.map fun f =>
    match fsLookup fs (pathJoin cwd f) with
    | none => []
    | some data => matchLines test (relFromRoot root (pathJoin cwd f)) data).flatten

theorem grepGo_take (test : String → Bool) (fs : FS) (root cwd : String) (mm : Nat) :
    ∀ (files : List String) (out : List GrepMatch),
    (grepGo test fs root cwd mm files out).take mm
      = (out ++ grepAllMatches test fs root cwd files).take mm := by
  intro files
  induction files with
  | nil => intro out; simp [grepGo, grepAllMatches]
  | cons f rest ih =>
    intro out
    simp only [grepGo, grepAllMatches, List.map_cons, List.flatten_cons]
    cases hf : fsLookup fs (pathJoin cwd f) with
    | none =>
      rw [ih out]
      simp [grepAllMatches]
    | some data =>
      simp only []
      split
      · rename_i hlen
        rw [← List.append_assoc, List.take_append_of_le_length hlen]
      · rw [ih (out ++ matchLines test (relFromRoot root (pathJoin cwd f)) data),
          List.append_assoc]
        rfl

/-- C9: `grep` returns exactly the first `maxMatches` records of the full
match stream — one record per matching line, files in processing order with
earlier files contributing first, unreadable files silently skipped — and in
particular never more than `maxMatches` records.  Holds for every file
enumeration `fgAll` and every compiled-regex behaviour `test`. -/
theorem grep_c9_cap (fgAll : FS → String → List String) (test : String → Bool)
    (fs : FS) (root cwdRel cwd : String) (maxMatches : Option Nat)
    (h : resolveSafe root cwdRel = Except.ok cwd) :
    grep fgAll test fs root cwdRel maxMatches
      = Except.ok ((grepAllMatches test fs root cwd (fgAll fs cwd)).take
          (maxMatches.getD 200))
    ∧ ((grepAllMatches test fs root cwd (fgAll fs cwd)).take
        (maxMatches.getD 200)).length ≤ maxMatches.getD 200 := by
  constructor
  · simp only [grep, h, Bind.bind, Except.bind]
    rw [grepGo_take]
    simp
  · rw [List.length_take]
    exact Nat.min_le_left _ _

/-- C9 witness: two files holding three matching lines in total, capped at
`maxMatches = 2`; the result is the first two matches of the first file. -/
theorem grep_c9_witness :
    resolveSafe "/ws" "." = Except.ok "/ws"
    ∧ grep (fun _ _ => ["a.txt", "b.txt"]) (fun l => l == "hit")
        [("/ws/a.txt", "hit\nmiss\nhit"), ("/ws/b.txt", "hit")] "/ws" "." (some 2)
      = Except.ok [⟨"a.txt", 1, "hit"⟩, ⟨"a.txt", 3, "hit"⟩] :=
  ⟨rfl, by
    have hc := (grep_c9_cap (fun _ _ => ["a.txt", "b.txt"]) (fun l => l == "hit")
      [("/ws/a.txt", "hit\nmiss\nhit"), ("/ws/b.txt", "hit")] "/ws" "." "/ws"
      (some 2) rfl).1
    exact hc.trans (by rfl)⟩

/-! ### `listDir` and `globSearch` (server.js lines 24, 34–44, 87–94) -/

/-- The hardcoded ignore-set of `server/server.js` line 24. -/
def DEFAULT_IGNORES : List String :=
  [".git", "node_modules", "dist", "build", ".next", "out", ".venv", "__pycache__"]

/-- Strip a leading run of characters; `none` when it does not occur. -/
def stripStart : List Char → List Char → Option (List Char)
  | [], l => some l
  | _ :: _, [] => none
  | a :: as, b :: bs => if a = b then stripStart as bs else none

/-- First path segment of a character list and whether more segments follow. -/
def upToSlash : List Char → List Char × Bool
  | [] => ([], false)
  | '/' :: _ => ([], true)
  | c :: cs =>
    let (seg, more) := upToSlash cs
    (c :: seg, more)

/-- The immediate child of `dir` (given as `dir/` characters) that the path
`p` witnesses, with a flag marking it as a directory. -/
def childOf (dirSlash : List Char) (p : String) : Option (String × Bool) :=
  match stripStart dirSlash p.toList with
  | none => none
  | some rest =>
    let (seg, deeper) := upToSlash rest
    if seg = [] then none else some (⟨seg⟩, deeper)

def dedupeAux (seen : List String) : List (String × Bool) → List (String × Bool)
  | [] => []
  | (n, d) :: rest =>
    if seen.contains n then dedupeAux seen rest
    else (n, d) :: dedupeAux (n :: seen) rest

/-- `fs.readdirSync(dir, {withFileTypes: true})` over the flat path map:
the distinct immediate children of `dir`, in first-occurrence order.  A
directory with no entries is indistinguishable from a missing one in this
model, and `readdirSync` throws `ENOENT` on a missing directory. -/
def readdirModel (fs : FS) (dir : String) : Except String (List (String × Bool)) :=
  match dedupeAux [] (fs.filterMap fun pc => childOf (dir.toList ++ ['/']) pc.1) with
  | [] => Except.error "ENOENT: no such directory"
  | entries => Except.ok entries

structure DirEntry where
  name : String
  type : String
  size : Option Nat
deriving DecidableEq

/-- `listDir` from `server/server.js`: list children, drop the ignore-set,
report sizes for files only. -/
def listDir (fs : FS) (root relPath : String) : Except String (List DirEntry) := do
  let dir ← resolveSafe root relPath
  let entries ← readdirModel fs dir
  Except.ok <| (entries.filter fun e => !(DEFAULT_IGNORES.contains e.1)).map fun e =>
    if e.2 then { name := e.1, type := "dir", size := none }
    else { name := e.1, type := "file",
           size := (fsLookup fs (dir ++ "/" ++ e.1)).map utf8Len }

/-- `globSearch` from `server/server.js`: resolve the cwd and delegate to the
fast-glob library, abstracted as `fg cwd pattern` over the model state. -/
def globSearch (fg : FS → String → String → List String) (fs : FS)
    (root pattern cwdRel : String) : Except String (List String) := do
  let cwd ← resolveSafe root cwdRel
  Except.ok (fg fs cwd pattern)

/-! ### The tool dispatcher `POST /api/tools` (server.js lines 183–224) -/

/-- The external libraries the server calls, bundled: `cp` is
`createTwoFilesPatch`, `lib` is `applyPatch`, `fgGlob` and `fgAll` the two
fast-glob invocations, `regexI` the case-insensitively compiled RegExp's
per-line `test`. -/
structure Ext where
  cp : String → String → String → String
  lib : String → String → Option String
  fgGlob : FS → String → String → List String
  fgAll : FS → String → List String
  regexI : String → String → Bool

/-- The request body `{name, args}`: each tool argument is present or
absent, mirroring the dynamic `args` object. -/
structure ToolCall where
  name : String
  path : Option String
  content : Option String
  diff : Option String
  approve : Option Bool
  pattern : Option String
  cwd : Option String
  maxBytes : Option Nat
  maxMatches : Option Nat
deriving DecidableEq

inductive ToolResult
  | dirEntries (l : List DirEntry)
  | snapshot (s : Snapshot)
  | write (w : WriteResult)
  | patch (p : PatchResult)
  | paths (l : List String)
  | grepMatches (l : List GrepMatch)
deriving DecidableEq

/-- The JSON body the dispatcher sends back, keeping track of which keys are
present: successes are `{ok: true, result}`; every error path in the source
writes `res.json({error})` — with no `ok` key. -/
structure RespBody where
  ok : Option Bool
  result : Option ToolResult
  error : Option String
deriving DecidableEq

def mkSuccess (r : ToolResult) : RespBody := ⟨some true, some r, none⟩

def mkError (m : String) : RespBody := ⟨none, none, some m⟩

/-- A JavaScript-falsy optional string: absent or empty. -/
def falsyStr : Option String → Bool
  | none => true
  | some s => s = ""

/-- The `try`/`catch` around a delegate call: a thrown error becomes a 500
`{error}` response, a normal return a 200 `{ok: true, result}`. -/
def wrap (fs : FS) (r : Except String (FS × ToolResult)) : FS × Nat × RespBody :=
  match r with
  | Except.ok (fs2, tr) => (fs2, 200, mkSuccess tr)
  | Except.error e => (fs, 500, mkError e)

/-- The `POST /api/tools` handler of `server/server.js`: validate the tool
name and required arguments (falsy checks), dispatch over the fixed switch,
wrap results and normalize thrown errors.  Returns the filesystem after the
call together with the HTTP status and response body. -/
def toolsDispatch (ext : Ext) (fs : FS) (root : String) (call : ToolCall) :
    FS × Nat × RespBody :=
  if call.name = "" then (fs, 400, mkError "Tool name required")
  else if call.name = "list_dir" then
    wrap fs ((listDir fs root (call.path.getD ".")).map fun r =>
      (fs, ToolResult.dirEntries r))
  else if call.name = "read_file" then
    if falsyStr call.path then (fs, 400, mkError "path required")
    else wrap fs ((readFile fs root (call.path.getD "") call.maxBytes).map fun s =>
      (fs, ToolResult.snapshot s))
  else if call.name = "write_file" then
    if falsyStr call.path || call.content.isNone then
      (fs, 400, mkError "path and content required")
    else wrap fs ((writeFile ext.cp fs root (call.path.getD "") (call.content.getD "")
      (call.approve.getD false)).map fun r => (r.1, ToolResult.write r.2))
  else if call.name = "apply_patch" then
    if falsyStr call.path || call.diff.isNone then
      (fs, 400, mkError "path and diff required")
    else wrap fs ((applyUnifiedPatch ext.lib fs root (call.path.getD "")
      (call.diff.getD "") (call.approve.getD false)).map fun r =>
      (r.1, ToolResult.patch r.2))
  else if call.name = "glob" then
    wrap fs ((globSearch ext.fgGlob fs root (call.pattern.getD "**/*")
      (call.cwd.getD ".")).map fun r => (fs, ToolResult.paths r))
  else if call.name = "grep" then
    if falsyStr call.pattern then (fs, 400, mkError "pattern required")
    else wrap fs ((grep ext.fgAll (ext.regexI (call.pattern.getD "")) fs root
      (call.cwd.getD ".") call.maxMatches).map fun r =>
      (fs, ToolResult.grepMatches r))
  else (fs, 400, mkError ("Unknown tool: " ++ call.name))

/-- The response-shape invariant: either a 200 success carrying
`ok = true` and a result, or a 400/500 failure carrying only an error
message — with the `ok` key absent. -/
def envelopeOk (resp : FS × Nat × RespBody) : Prop :=
  (resp.2.1 = 200 ∧ resp.2.2.ok = some true ∧ resp.2.2.error = none
    ∧ ∃ r, resp.2.2.result = some r)
  ∨ ((resp.2.1 = 400 ∨ resp.2.1 = 500) ∧ resp.2.2.ok = none
    ∧ resp.2.2.result = none ∧ ∃ m, resp.2.2.error = some m)

theorem wrap_envelope (fs : FS) (r : Except String (FS × ToolResult)) :
    envelopeOk (wrap fs r) := by
  cases r with
  | ok x => exact Or.inl ⟨rfl, rfl, rfl, x.2, rfl⟩
  | error e => exact Or.inr ⟨Or.inr rfl, rfl, rfl, e, rfl⟩

/-- A concrete instantiation of the external libraries, used by closed
witness/counterexample statements. -/
def extModel : Ext where
  cp := fun r b a => r ++ "|" ++ b ++ "|" ++ a
  lib := applyPatchModel
  fgGlob := fun _ _ _ => []
  fgAll := fun _ _ => []
  regexI := fun _ _ => false

/-- C6 counterexample: requesting `read_file` on a nonexistent path is
normalized to a 500 response whose body is `{error: message}` — the `ok`
key is absent, not `false`, so the failure envelope is not the claimed
`{ok: false, error: message}`. -/
theorem toolsDispatch_c6_counterexample :
    toolsDispatch extModel [] "/ws"
        ⟨"read_file", some "nope.txt", none, none, none, none, none, none, none⟩
      = ([], 500, ⟨none, none, some "ENOENT: no such file or directory"⟩)
    ∧ (⟨none, none, some "ENOENT: no such file or directory"⟩ : RespBody).ok
        ≠ some false :=
  ⟨rfl, by simp⟩

/-- C6 amended: for every tool invocation — every library behaviour, state,
and argument shape — the dispatcher's response is uniform: a success is
`{ok: true, result}` with status 200, and every failure (unknown tool,
missing required arguments, path escapes, filesystem errors) is normalized
to a structured `{error: message}` body with status 400 or 500; the `ok`
key is absent from failure bodies rather than set to `false`, and no
failure propagates as an unstructured fault. -/
theorem toolsDispatch_c6_envelope (ext : Ext) (fs : FS) (root : String)
    (call : ToolCall) : envelopeOk (toolsDispatch ext fs root call) := by
  unfold toolsDispatch
  repeat' split
  all_goals first
    | exact wrap_envelope _ _
    | exact Or.inr ⟨Or.inl rfl, rfl, rfl, _, rfl⟩

/-! ### The streaming proxy `POST /api/chat/stream`
(server.js lines 138–180; extended variant `part_000` lines 179–229) -/

structure Msg where
  role : String
  content : String
deriving DecidableEq

/-- One backend chunk as the loop observes it: either `part.choices?.[0]`
is absent, or it carries an optional `delta.content` and the truthiness of
`finish_reason`. -/
inductive Chunk
  | noChoice
  | choice (content : Option String) (finish : Bool)
deriving DecidableEq

inductive SEvent
  | token (content : String)
  | done (message : String)
  | error (error : String)
deriving DecidableEq

/-- The `for await (const part of stream)` loop followed by the final
`sseEvent(res, 'done', {message: fullText})`: per chunk, a truthy content
(non-empty string) is appended to `fullText` and emitted as a `token`
event; a truthy `finish_reason` breaks the loop; the `done` event carries
the accumulated text whether the loop broke or the stream ended. -/
def streamLoop : List Chunk → String → List SEvent
  | [], fullText => [SEvent.done fullText]
  | Chunk.noChoice :: rest, fullText => streamLoop rest fullText
  | Chunk.choice none false :: rest, fullText => streamLoop rest fullText
  | Chunk.choice none true :: _, fullText => [SEvent.done fullText]
  | Chunk.choice (some c) false :: rest, fullText =>
    if c = "" then streamLoop rest fullText
    else SEvent.token c :: streamLoop rest (fullText ++ c)
  | Chunk.choice (some c) true :: _, fullText =>
    if c = "" then [SEvent.done fullText]
    else [SEvent.token c, SEvent.done (fullText ++ c)]

/-- Outcome of one request to the streaming endpoint: a 400 JSON error
before any SSE traffic, or an SSE session recording the message list
forwarded to the backend and the events emitted. -/
inductive StreamOutcome
  | badRequest (error : String)
  | sse (forwarded : List Msg) (events : List SEvent)
deriving DecidableEq

/-- The `POST /api/chat/stream` handler of `server/server.js`: the request's
`messages` field is modelled as `none` when it is not an array; the only
validation is `Array.isArray`, after which the SSE stream is initialized and
the backend (abstracted as `backend`, the chunk sequence it emits for the
forwarded messages) is consumed by `streamLoop`. -/
def chatStream (backend : List Msg → List Chunk)
    (messages : Option (List Msg)) : StreamOutcome :=
  match messages with
  | none => StreamOutcome.badRequest "messages must be an array"
  | some msgs => StreamOutcome.sse msgs (streamLoop (backend msgs) "")

/-- C7 counterexample: an empty message list is an array, so it passes the
only validation the handler performs; the backend stream is opened and a
terminal event is emitted, contradicting the claim that every non-conforming
message list (for example an empty one) fails fast with no events. -/
theorem chatStream_c7_counterexample :
    chatStream (fun _ => []) (some [])
      = StreamOutcome.sse [] [SEvent.done ""]
    ∧ ∀ e, StreamOutcome.sse [] [SEvent.done ""] ≠ StreamOutcome.badRequest e :=
  ⟨rfl, fun _ h => StreamOutcome.noConfusion h⟩

/-- C7 amended: the handler fails fast with a 400 `messages must be an
array` error — before opening any backend stream — exactly when the
`messages` field is not an array; every array, including the empty list and
regardless of the shape of its entries, passes validation and the backend
stream is opened. -/
theorem chatStream_c7_amended (backend : List Msg → List Chunk)
    (messages : Option (List Msg)) :
    (messages = none →
      chatStream backend messages = StreamOutcome.badRequest "messages must be an array")
    ∧ (∀ msgs, messages = some msgs →
      chatStream backend messages
        = StreamOutcome.sse msgs (streamLoop (backend msgs) "")) := by
  constructor
  · intro h; rw [h]; rfl
  · intro msgs h; rw [h]; rfl

/-- C7 witness: both branches of the amended statement at concrete inputs. -/
theorem chatStream_c7_witness :
    chatStream (fun _ => []) none = StreamOutcome.badRequest "messages must be an array"
    ∧ chatStream (fun _ => []) (some [⟨"user", "oi"⟩])
      = StreamOutcome.sse [⟨"user", "oi"⟩] [SEvent.done ""] :=
  ⟨(chatStream_c7_amended (fun _ => []) none).1 rfl,
    (chatStream_c7_amended (fun _ => []) (some [⟨"user", "oi"⟩])).2 _ rfl⟩

/-- Is the chunk's `finish_reason` truthy? -/
def isFin : Chunk → Bool
  | Chunk.noChoice => false
  | Chunk.choice _ f => f

/-- Spec-side event stream: one `token` per content-bearing chunk, in
emission order. -/
def specTokens (cs : List Chunk) : List SEvent :=
  cs.filterMap fun c =>
    match c with
    | Chunk.choice (some s) _ => if s = "" then none else some (SEvent.token s)
    | _ => none

/-- Spec-side accumulated text: the concatenation, onto `ft`, of the
contents of the content-bearing chunks. -/
def specFullF (ft : String) (cs : List Chunk) : String :=
  cs.foldl (fun acc c =>
    match c with
    | Chunk.choice (some s) _ => if s = "" then acc else acc ++ s
    | _ => acc) ft

theorem streamLoop_spec (cs : List Chunk) :
    ∀ ft, (∀ c ∈ cs, isFin c = false) →
    streamLoop (cs ++ [Chunk.choice none true]) ft
      = specTokens cs ++ [SEvent.done (specFullF ft cs)] := by
  induction cs with
  | nil => intro ft _; rfl
  | cons c rest ih =>
    intro ft h
    have hc : isFin c = false := h c (List.mem_cons_self c rest)
    have hrest : ∀ x ∈ rest, isFin x = false := fun x hx => h x (List.mem_cons_of_mem c hx)
    cases c with
    | noChoice =>
      simpa [streamLoop, specTokens, specFullF] using ih ft hrest
    | choice content finish =>
      cases finish with
      | true => exact absurd hc (by simp [isFin])
      | false =>
        cases content with
        | none => simpa [streamLoop, specTokens, specFullF] using ih ft hrest
        | some s =>
          by_cases hs : s = ""
          · simpa [streamLoop, specTokens, specFullF, hs] using ih ft hrest
          · simpa [streamLoop, specTokens, specFullF, hs] using ih (ft ++ s) hrest

/-- C8: for every backend chunk sequence ending in a finish marker, the
emitted events are exactly one `token` per content-bearing chunk, in backend
emission order, followed by exactly one terminal `done` event whose payload
is the accumulated concatenation of the emitted token texts. -/
theorem streamLoop_c8_token_done (cs : List Chunk)
    (h : ∀ c ∈ cs, isFin c = false) :
    streamLoop (cs ++ [Chunk.choice none true]) ""
      = specTokens cs ++ [SEvent.done (specFullF "" cs)] :=
  streamLoop_spec cs "" h

/-- C8 witness: the spec's scenario — chunks `Ol`, `á, `, `mundo` then a
finish marker yield `token` events in order and `done("Olá, mundo")` last. -/
theorem streamLoop_c8_witness :
    (∀ c ∈ [Chunk.choice (some "Ol") false, Chunk.choice (some "á, ") false,
        Chunk.choice (some "mundo") false], isFin c = false)
    ∧ streamLoop ([Chunk.choice (some "Ol") false, Chunk.choice (some "á, ") false,
        Chunk.choice (some "mundo") false] ++ [Chunk.choice none true]) ""
      = [SEvent.token "Ol", SEvent.token "á, ", SEvent.token "mundo",
          SEvent.done "Olá, mundo"] :=
  ⟨by decide,
    (streamLoop_c8_token_done
      [Chunk.choice (some "Ol") false, Chunk.choice (some "á, ") false,
        Chunk.choice (some "mundo") false] (by decide)).trans (by rfl)⟩

/-- The `POST /api/chat/stream` handler of the extended server variant
(`src/unnamed/part_000`): after the same array validation, a system message
carrying the server-built workspace summary (`buildSystemPrompt`, abstracted
here as the parameter `sysContent`) is prepended unless the submitted list
already starts with a system message. -/
def chatStream2 (backend : List Msg → List Chunk) (sysContent : String)
    (messages : Option (List Msg)) : StreamOutcome :=
  match messages with
  | none => StreamOutcome.badRequest "messages must be an array"
  | some msgs =>
    let sys : Msg := ⟨"system", sysContent⟩
    let hasSystem := msgs.length != 0 && (msgs.headD ⟨"", ""⟩).role == "system"
    let finalMessages := if hasSystem then msgs else sys :: msgs
    StreamOutcome.sse finalMessages (streamLoop (backend finalMessages) "")

/-- C10: in the extended variant, the message list forwarded to the backend
is the submitted list unchanged when its first message has role `system`,
and otherwise — including for the empty list — the submitted list with the
server-built system message prepended. -/
theorem chatStream2_c10_system_injection (backend : List Msg → List Chunk)
    (sysContent : String) (msgs : List Msg) :
    (∀ m rest, msgs = m :: rest → m.role = "system" →
      chatStream2 backend sysContent (some msgs)
        = StreamOutcome.sse msgs (streamLoop (backend msgs) ""))
    ∧ ((msgs = [] ∨ ∀ m rest, msgs = m :: rest → m.role ≠ "system") →
      chatStream2 backend sysContent (some msgs)
        = StreamOutcome.sse (⟨"system", sysContent⟩ :: msgs)
            (streamLoop (backend (⟨"system", sysContent⟩ :: msgs)) "")) := by
  constructor
  · intro m rest hm hrole
    subst hm
    simp [chatStream2, hrole]
  · intro hcase
    rcases hcase with hnil | hrole
    · subst hnil
      simp [chatStream2]
    · cases msgs with
      | nil => simp [chatStream2]
      | cons m rest =>
        have : m.role ≠ "system" := hrole m rest rfl
        simp [chatStream2, this]

/-- C10 witness: a list already led by a system message is forwarded
unchanged; an empty list gets the system message prepended. -/
theorem chatStream2_c10_witness :
    chatStream2 (fun _ => []) "resumo" (some [⟨"system", "meu"⟩, ⟨"user", "oi"⟩])
      = StreamOutcome.sse [⟨"system", "meu"⟩, ⟨"user", "oi"⟩] [SEvent.done ""]
    ∧ chatStream2 (fun _ => []) "resumo" (some [])
      = StreamOutcome.sse [⟨"system", "resumo"⟩] [SEvent.done ""] :=
  ⟨(chatStream2_c10_system_injection (fun _ => []) "resumo"
      [⟨"system", "meu"⟩, ⟨"user", "oi"⟩]).1 ⟨"system", "meu"⟩ [⟨"user", "oi"⟩] rfl rfl,
    (chatStream2_c10_system_injection (fun _ => []) "resumo" []).2 (Or.inl rfl)⟩

end Chat
